import Mathlib

/-!
Verification of the Resilient Task Execution Layer of the AE automation
repository (files `ae_optimizations.py` and `ae_automation_v2_optimized.py`).

The Python classes are shallowly embedded as pure Lean functions:
stateful methods become explicit state-passing functions, wall-clock reads
(`time.time()`) become an explicit `now : ℚ` argument, `asyncio.sleep`
becomes a returned wait duration, and a protected asynchronous callee
becomes an explicit outcome argument (`Except ε α`, or `Nat → Except ε α`
when the callee may be invoked several times).  Python floats are modelled
as exact rationals; Python `None` as `Option.none`; a raised exception as
`Except.error`.
-/

namespace AEOpt

/-- The three circuit-breaker states; the Python code stores them as the
strings `'closed'`, `'open'`, `'half-open'`. -/
inductive CBState : Type
  | closed
  | opened
  | halfOpen
deriving DecidableEq, Repr

/-- State of `ae_optimizations.CircuitBreaker` (constructor fields plus the
mutable attributes `failure_count`, `last_failure_time`, `state`). -/
structure CircuitBreaker : Type where
  failure_threshold : Nat
  recovery_timeout : ℚ
  failure_count : Nat
  last_failure_time : Option ℚ
  state : CBState
deriving DecidableEq, Repr

/-- `CircuitBreaker.__init__`: thresholds from the arguments, zero failures,
no failure time, state `'closed'`. -/
def CircuitBreaker.init (failure_threshold : Nat) (recovery_timeout : ℚ) :
    CircuitBreaker :=
  { failure_threshold := failure_threshold
    recovery_timeout := recovery_timeout
    failure_count := 0
    last_failure_time := none
    state := .closed }

/-- `CircuitBreaker.is_open` (ae_optimizations.py lines 134-142).  Returns the
boolean result together with the possibly mutated breaker (the method flips
`'open'` to `'half-open'` when strictly more than `recovery_timeout` has
elapsed).  Python's `if self.last_failure_time:` is a truthiness test, so a
stored time of `0` behaves like `None`; we model it by the guard `t ≠ 0`. -/
def CircuitBreaker.is_open (cb : CircuitBreaker) (now : ℚ) :
    Bool × CircuitBreaker :=
  if cb.state = .opened then
    match cb.last_failure_time with
    | some t =>
        if t ≠ 0 ∧ now - t > cb.recovery_timeout then
          (false, { cb with state := .halfOpen })
        else (true, cb)
    | none => (true, cb)
  else (false, cb)

/-- Errors observable from `CircuitBreaker.call`: the locally synthesized
`Exception("Circuit breaker is OPEN - service unavailable")`, or the
re-raised error of the protected function. -/
inductive CallError (ε : Type) : Type
  | circuitOpen
  | fnError (e : ε)
deriving DecidableEq, Repr

/-- `CircuitBreaker.call` (ae_optimizations.py lines 144-164).  `fnResult` is
the outcome the awaited protected function produces if it is invoked.  The
result is `(returned-or-raised value, updated breaker, whether fn was
invoked)`. -/
def CircuitBreaker.call {ε α : Type} (cb : CircuitBreaker) (now : ℚ)
    (fnResult : Except ε α) :
    Except (CallError ε) α × CircuitBreaker × Bool :=
  let checked := cb.is_open now
  if checked.1 then (.error .circuitOpen, checked.2, false)
  else
    match fnResult with
    | .ok v =>
        let cb2 :=
          if checked.2.state = .halfOpen then
            { checked.2 with state := .closed, failure_count := 0 }
          else checked.2
        (.ok v, cb2, true)
    | .error e =>
        let cb2 := { checked.2 with
          failure_count := checked.2.failure_count + 1
          last_failure_time := some now }
        let cb3 :=
          if cb2.failure_count ≥ cb2.failure_threshold then
            { cb2 with state := .opened }
          else cb2
        (.error (.fnError e), cb3, true)

example :
    ((CircuitBreaker.init 5 60).call 1
      (Except.error 0 : Except Nat Nat)).2.1.failure_count = 1 := by decide

example :
    (({ CircuitBreaker.init 5 60 with
        failure_count := 4, state := .closed }).call 1
        (Except.error 0 : Except Nat Nat)).2.1.state = .opened := by decide

example :
    (({ CircuitBreaker.init 5 60 with
        failure_count := 5, last_failure_time := some 100,
        state := .opened }).call 160
        (Except.ok 0 : Except Nat Nat)).2.2 = false := by
  norm_num [CircuitBreaker.call, CircuitBreaker.is_open, CircuitBreaker.init]

example :
    (({ CircuitBreaker.init 5 60 with
        failure_count := 5, last_failure_time := some 100,
        state := .opened }).call 161
        (Except.ok 0 : Except Nat Nat)).2.1.state = .closed := by
  norm_num [CircuitBreaker.call, CircuitBreaker.is_open, CircuitBreaker.init]

/-- Parameters of `ae_optimizations.RetryHandler`. -/
structure RetryHandler : Type where
  max_retries : Nat
  base_delay : ℚ
deriving DecidableEq, Repr

/-- Attempt loop of `RetryHandler.execute_with_retry` (ae_optimizations.py
lines 177-194), starting at attempt index `k` of `maxr` total attempts.
`fn j` is the outcome the awaited function produces on its `j`-th invocation
(0-indexed).  Returns `(outcome, number of invocations performed, list of
back-off sleeps performed)`; the final `raise last_exception` with an empty
loop (`max_retries = 0`) raises Python `None`, modelled as `.error none`. -/
def retryLoop {ε α : Type} (fn : Nat → Except ε α) (base_delay : ℚ)
    (maxr : Nat) (k : Nat) : Except (Option ε) α × Nat × List ℚ :=
  if k < maxr then
    match fn k with
    | .ok v => (.ok v, 1, [])
    | .error e =>
        if k < maxr - 1 then
          let r := retryLoop fn base_delay maxr (k + 1)
          (r.1, r.2.1 + 1, base_delay * 2 ^ k :: r.2.2)
        else (.error (some e), 1, [])
  else (.error none, 0, [])
termination_by maxr - k

/-- `RetryHandler.execute_with_retry`: run the attempt loop from attempt 0. -/
def RetryHandler.execute_with_retry {ε α : Type} (h : RetryHandler)
    (fn : Nat → Except ε α) : Except (Option ε) α × Nat × List ℚ :=
  retryLoop fn h.base_delay h.max_retries 0

example :
    RetryHandler.execute_with_retry ⟨3, 1⟩
      (fun k => if k = 1 then .ok 7 else (.error 9 : Except Nat Nat))
      = (.ok 7, 2, [1]) := by
  simp [RetryHandler.execute_with_retry, retryLoop]

example :
    RetryHandler.execute_with_retry ⟨3, 1⟩
      (fun k => (.error k : Except Nat Nat))
      = (.error (some 2), 3, [1, 2]) := by
  simp [RetryHandler.execute_with_retry, retryLoop]

/-- State of `ae_optimizations.RateLimiter`.  `rate` and `per` are the
constructor arguments (ints in the source); `allowance` and `last_check`
are the mutable attributes.  The `asyncio.Lock` serialises `acquire`
bodies, which the sequential state-passing embedding reflects. -/
structure RateLimiter : Type where
  rate : ℚ
  per : ℚ
  allowance : ℚ
  last_check : ℚ
deriving DecidableEq, Repr

/-- `RateLimiter.__init__`: starts with a full allowance. -/
def RateLimiter.init (rate per : ℚ) (now : ℚ) : RateLimiter :=
  { rate := rate, per := per, allowance := rate, last_check := now }

/-- `RateLimiter.acquire` (ae_optimizations.py lines 99-118).  Returns the
updated state and the duration passed to `asyncio.sleep` (`0` when no sleep
happens).  After a sleep the code sets `allowance = 1.0` and then executes
the common `allowance -= 1.0`. -/
def RateLimiter.acquire (s : RateLimiter) (now : ℚ) : RateLimiter × ℚ :=
  let time_passed := now - s.last_check
  let a := s.allowance + time_passed * (s.rate / s.per)
  let a := if a > s.rate then s.rate else a
  if a < 1 then
    ({ s with allowance := 0, last_check := now },
      (1 - a) * (s.per / s.rate))
  else
    ({ s with allowance := a - 1, last_check := now }, 0)

example :
    (RateLimiter.init 60 60 0).acquire 1
      = ({ rate := 60, per := 60, allowance := 59, last_check := 1 }, 0) := by
  norm_num [RateLimiter.init, RateLimiter.acquire]

example :
    (({ rate := 60, per := 60, allowance := 0, last_check := 10 }
        : RateLimiter).acquire 10)
      = ({ rate := 60, per := 60, allowance := 0, last_check := 10 }, 1) := by
  norm_num [RateLimiter.acquire]

/-- One row of the sqlite `cache` table of `ae_optimizations.EnhancedCache`
(the `key` column is the association-list key). -/
structure CacheEntry : Type where
  value : String
  agent : String
  model : String
  created_at : ℚ
  expires_at : ℚ
  hit_count : Nat
deriving DecidableEq, Repr

/-- The sqlite backend of `EnhancedCache`: either a reachable database whose
`cache` table is the given row list (`key` is a PRIMARY KEY, so keys are
unique), or an unavailable backend, in which case every `sqlite3.connect`
raises.  `EnhancedCache.get`/`store` md5-hash the caller's key before every
lookup and insert; since the same deterministic digest is applied on both
paths, the digest strings are taken as the keys of the model. -/
inductive CacheBackend : Type
  | available (rows : List (String × CacheEntry))
  | unavailable
deriving DecidableEq, Repr

/-- State of `ae_optimizations.EnhancedCache`: the TTL in seconds
(`ttl_hours * 3600`), the backend, and its private `PerformanceMonitor`'s
`cache_hits` / `cache_misses` counters. -/
structure EnhancedCache : Type where
  ttl : ℚ
  backend : CacheBackend
  cache_hits : Nat
  cache_misses : Nat
deriving DecidableEq, Repr

/-- Row lookup by primary key (the `WHERE key = ?` part of the query). -/
def lookupRow : List (String × CacheEntry) → String → Option CacheEntry
  | [], _ => none
  | (k, e) :: rest, key => if k = key then some e else lookupRow rest key

/-- The `UPDATE cache SET hit_count = hit_count + 1 WHERE key = ?` step. -/
def bumpHit : List (String × CacheEntry) → String → List (String × CacheEntry)
  | [], _ => []
  | (k, e) :: rest, key =>
      if k = key then (k, { e with hit_count := e.hit_count + 1 }) :: rest
      else (k, e) :: bumpHit rest key

/-- The `INSERT OR REPLACE` step; the replaced row's `hit_count` is absent
from the column list and takes its sqlite DEFAULT of 0. -/
def insertOrReplace : List (String × CacheEntry) → String → CacheEntry →
    List (String × CacheEntry)
  | [], key, e => [(key, e)]
  | (k, e0) :: rest, key, e =>
      if k = key then (key, e) :: rest else (k, e0) :: insertOrReplace rest key e

/-- `EnhancedCache.get` (ae_optimizations.py lines 239-266): select the row
with this key whose `expires_at` is strictly later than the current time;
on a hit bump its `hit_count` and the hit counter, otherwise bump the miss
counter.  The method installs no exception handler, so an unavailable
backend propagates as `.error ()`. -/
def EnhancedCache.get (c : EnhancedCache) (now : ℚ) (key : String) :
    Except Unit (Option String) × EnhancedCache :=
  match c.backend with
  | .unavailable => (.error (), c)
  | .available rows =>
      match lookupRow rows key with
      | some e =>
          if e.expires_at > now then
            (.ok (some e.value),
              { c with backend := .available (bumpHit rows key)
                       cache_hits := c.cache_hits + 1 })
          else (.ok none, { c with cache_misses := c.cache_misses + 1 })
      | none => (.ok none, { c with cache_misses := c.cache_misses + 1 })

/-- `EnhancedCache.store` (ae_optimizations.py lines 268-284): insert or
replace the row, with `expires_at = now + ttl`.  No exception handler, so
an unavailable backend propagates as `.error ()`. -/
def EnhancedCache.store (c : EnhancedCache) (now : ℚ)
    (key value agent model : String) : Except Unit Unit × EnhancedCache :=
  match c.backend with
  | .unavailable => (.error (), c)
  | .available rows =>
      (.ok (),
        { c with backend := .available (insertOrReplace rows key
            { value := value, agent := agent, model := model
              created_at := now, expires_at := now + c.ttl, hit_count := 0 }) })

/-- The `AgentResult` dataclass of `ae_automation_v2.py` (the fields
`route_task_optimized` reads; `output` is the generated text, a string on
the success paths that reach the cache). -/
structure AgentResult : Type where
  success : Bool
  agent_name : String
  model_used : String
  output : String
deriving DecidableEq, Repr

/-- Value returned by `route_task_optimized`: either the raw cached string
(the cache-hit early return) or a full `AgentResult` from the live
pipeline — the two are distinguishable to the caller. -/
inductive RouteResult : Type
  | fromCache (v : String)
  | fresh (r : AgentResult)
deriving DecidableEq, Repr

/-- Errors raised out of `route_task_optimized`: a sqlite error from the
cache, or the error raised by `CircuitBreaker.call` (whose `fnError`
payload is the retry loop's re-raised last error). -/
inductive RouteErr (ε : Type) : Type
  | cacheBackend
  | breakerErr (e : CallError (Option ε))
deriving DecidableEq, Repr

/-- The optimization components of `OptimizedOrchestrator` touched by
`route_task_optimized`, plus its `PerformanceMonitor`'s counters
(`cache_hits`, `cache_misses`, number of recorded requests). -/
structure Orchestrator : Type where
  cache : EnhancedCache
  circuit_breaker : CircuitBreaker
  rate_limiter : RateLimiter
  retry_handler : RetryHandler
  hits : Nat
  misses : Nat
  requests : Nat
deriving DecidableEq, Repr

/-- Observable effects of one `route_task_optimized` call: whether
`rate_limiter.acquire` ran and the sleep it returned, how many times the
external call (`super().route_task`) was invoked, and whether a result was
stored in the cache. -/
structure RouteLog : Type where
  rl_acquired : Bool
  rl_wait : ℚ
  external_invocations : Nat
  stored : Bool
deriving DecidableEq, Repr

/-- The cache-miss continuation of `route_task_optimized`
(ae_automation_v2_optimized.py lines 55-87): record the miss, acquire the
rate limiter, run `circuit_breaker.call(retry_handler.execute_with_retry,
super().route_task, task)`, cache the output when `result.success`, record
the request, and propagate any raised error (the bare `raise` of the
`except` block re-raises, including a sqlite error raised by `store`). -/
def route_miss {ε : Type} (o : Orchestrator) (now : ℚ) (prompt : String)
    (fn : Nat → Except ε AgentResult) :
    Except (RouteErr ε) RouteResult × Orchestrator × RouteLog :=
  let o2 := { o with misses := o.misses + 1 }
  let aq := o2.rate_limiter.acquire now
  let o3 := { o2 with rate_limiter := aq.1 }
  let retry := o3.retry_handler.execute_with_retry fn
  let cb := o3.circuit_breaker.call now retry.1
  let o4 := { o3 with circuit_breaker := cb.2.1 }
  let invocations := if cb.2.2 then retry.2.1 else 0
  match cb.1 with
  | .ok res =>
      if res.success then
        let st := o4.cache.store now prompt res.output res.agent_name
          res.model_used
        let o5 := { o4 with cache := st.2, requests := o4.requests + 1 }
        match st.1 with
        | .ok _ => (.ok (.fresh res), o5, ⟨true, aq.2, invocations, true⟩)
        | .error _ =>
            (.error .cacheBackend, o5, ⟨true, aq.2, invocations, false⟩)
      else
        (.ok (.fresh res), { o4 with requests := o4.requests + 1 },
          ⟨true, aq.2, invocations, false⟩)
  | .error e =>
      (.error (.breakerErr e), { o4 with requests := o4.requests + 1 },
        ⟨true, aq.2, invocations, false⟩)

/-- `OptimizedOrchestrator.route_task_optimized`
(ae_automation_v2_optimized.py lines 44-87).  `prompt` is `task.prompt`
(the cache key), `fn j` the outcome of the `j`-th invocation of
`super().route_task(task)`.  The hit test is Python's `if cached_result:`,
a truthiness test, so a cached empty string falls through to the miss
path.  `time.time()` readings within the single call are modelled as one
instant `now`. -/
def route_task_optimized {ε : Type} (o : Orchestrator) (now : ℚ)
    (prompt : String) (fn : Nat → Except ε AgentResult) :
    Except (RouteErr ε) RouteResult × Orchestrator × RouteLog :=
  let g := o.cache.get now prompt
  let o1 := { o with cache := g.2 }
  match g.1 with
  | .error _ => (.error .cacheBackend, o1, ⟨false, 0, 0, false⟩)
  | .ok (some v) =>
      if v = "" then route_miss o1 now prompt fn
      else (.ok (.fromCache v), { o1 with hits := o1.hits + 1 },
        ⟨false, 0, 0, false⟩)
  | .ok none => route_miss o1 now prompt fn

/-- Event-sequence semantics of `Debouncer.debounce` (ae_optimizations.py
lines 297-313) for one key of `pending_tasks`.  The slot holds the pending
timer: the absolute time at which its `asyncio.sleep(self.delay)` completes
and the payload captured by `delayed_execution`.  Processing an event at
time `t` first lets a due timer fire (its sleep completed at or before `t`),
then — as the method body does — cancels any still-pending timer for the
key and installs a fresh one at `t + delay`.  After the last event any
remaining timer fires.  Returns the payloads executed, in order. -/
def debounceGo {π : Type} (delay : ℚ) :
    Option (ℚ × π) → List (ℚ × π) → List π
  | pend, [] =>
      match pend with
      | some p => [p.2]
      | none => []
  | pend, (t, p) :: rest =>
      match pend with
      | some (ft, q) =>
          if ft ≤ t then q :: debounceGo delay (some (t + delay, p)) rest
          else debounceGo delay (some (t + delay, p)) rest
      | none => debounceGo delay (some (t + delay, p)) rest

/-- Run a key's event burst against an initially empty `pending_tasks`
slot. -/
def Debouncer.debounceRun {π : Type} (delay : ℚ) (events : List (ℚ × π)) :
    List π :=
  debounceGo delay none events

example :
    Debouncer.debounceRun (1/2) [((0 : ℚ), "a"), (1/4, "b"), (2/5, "c")]
      = ["c"] := by norm_num [Debouncer.debounceRun, debounceGo]

/-- `BatchProcessor.process_single` (ae_optimizations.py lines 371-374):
its body is `pass`, so it returns Python `None`, raises nothing (`Empty`
error type), and performs zero calls of the orchestrator's `execute`
pipeline (second component). -/
def BatchProcessor.process_single {τ : Type} (_task : τ) :
    (Except Empty (Option AgentResult)) × Nat :=
  (.ok none, 0)

/-- The flush step of `BatchProcessor.process_batch` (ae_optimizations.py
lines 360-366): `asyncio.gather(*(process_single task for task in batch),
return_exceptions=True)` — every item is dispatched as its own coroutine
and its outcome (value or captured exception) occupies its own slot of the
result list.  Returns the per-item outcomes and the total number of
`execute` calls performed. -/
def BatchProcessor.process_batch_dispatch {τ : Type} (batch : List τ) :
    List (Except Empty (Option AgentResult)) × Nat :=
  (batch.map (fun t => (BatchProcessor.process_single t).1),
    (batch.map (fun t => (BatchProcessor.process_single t).2)).sum)

/-- Shared mutable components seen by concurrent `route_task_optimized`
calls of one `OptimizedOrchestrator`. -/
structure Shared : Type where
  cache : EnhancedCache
  circuit_breaker : CircuitBreaker
  rate_limiter : RateLimiter
  retry_handler : RetryHandler
deriving DecidableEq, Repr

/-- Control point of one in-flight `route_task_optimized` coroutine:
`start` = about to run the cache check, `missed` = the cache check found
no usable value and the coroutine is suspended before the remaining
pipeline (the first `await` follows the check), `finished` = done, with
the number of external-call invocations it performed. -/
inductive ThreadPC (ε : Type) : Type
  | start
  | missed
  | finished (externalCalls : Nat)
      (result : Except (RouteErr ε) RouteResult)
deriving Repr

/-- Two concurrent `route_task_optimized` calls over the shared state. -/
structure ConcState (ε : Type) : Type where
  shared : Shared
  t1 : ThreadPC ε
  t2 : ThreadPC ε
deriving Repr

/-- Lift the shared components into an `Orchestrator` (monitor counters
are irrelevant to the dedup question and start at 0). -/
def Shared.toOrch (sh : Shared) : Orchestrator :=
  { cache := sh.cache, circuit_breaker := sh.circuit_breaker
    rate_limiter := sh.rate_limiter, retry_handler := sh.retry_handler
    hits := 0, misses := 0, requests := 0 }

/-- Advance one coroutine by one atomic phase.  The `start` phase is
exactly the cache lookup and hit test of `route_task_optimized`; the
`missed` phase is exactly `route_miss`, the remainder of the method.  The
split point is the method's first `await` after the cache check
(`rate_limiter.acquire`), where control can pass to the other coroutine. -/
def stepThread {ε : Type} (now : ℚ) (prompt : String)
    (fn : Nat → Except ε AgentResult) (sh : Shared) (pc : ThreadPC ε) :
    Shared × ThreadPC ε :=
  match pc with
  | .start =>
      let g := sh.cache.get now prompt
      let sh1 := { sh with cache := g.2 }
      match g.1 with
      | .error _ => (sh1, .finished 0 (.error .cacheBackend))
      | .ok (some v) =>
          if v = "" then (sh1, .missed)
          else (sh1, .finished 0 (.ok (.fromCache v)))
      | .ok none => (sh1, .missed)
  | .missed =>
      let r := route_miss (sh.toOrch) now prompt fn
      ({ cache := r.2.1.cache, circuit_breaker := r.2.1.circuit_breaker
         rate_limiter := r.2.1.rate_limiter
         retry_handler := r.2.1.retry_handler },
        .finished r.2.2.external_invocations r.1)
  | .finished n r => (sh, .finished n r)

/-- Run a schedule: `false` steps the first coroutine, `true` the second. -/
def runConc {ε : Type} (now : ℚ) (prompt : String)
    (fn : Nat → Except ε AgentResult) :
    ConcState ε → List Bool → ConcState ε
  | cs, [] => cs
  | cs, who :: rest =>
      let cs1 :=
        if who then
          let s := stepThread now prompt fn cs.shared cs.t2
          { cs with shared := s.1, t2 := s.2 }
        else
          let s := stepThread now prompt fn cs.shared cs.t1
          { cs with shared := s.1, t1 := s.2 }
      runConc now prompt fn cs1 rest

/-- External calls a finished (or still running) coroutine has made. -/
def ThreadPC.calls {ε : Type} : ThreadPC ε → Nat
  | .finished n _ => n
  | _ => 0

/-- Reachability invariant of the breaker: away from `closed`, the failure
count has met the threshold and a positive failure time is recorded (the
count is only reset together with a transition to `closed`, `opened` is
only entered at the threshold, and `time.time()` is positive).
`breakerInv_init` and `breakerInv_call` below show it holds in every
reachable state. -/
def BreakerInv (cb : CircuitBreaker) : Prop :=
  cb.state ≠ .closed →
    cb.failure_threshold ≤ cb.failure_count ∧
    ∃ t, cb.last_failure_time = some t ∧ 0 < t

/-- Transitions the `is_open` check may perform. -/
def cbPhase1Legal (pre mid : CBState) : Prop :=
  mid = pre ∨ (pre = .opened ∧ mid = .halfOpen)

/-- Transitions the body of `call` may perform after the `is_open` check. -/
def cbPhase2Legal (mid post : CBState) : Prop :=
  post = mid ∨ (mid = .closed ∧ post = .opened) ∨
    (mid = .halfOpen ∧ post = .closed) ∨
    (mid = .halfOpen ∧ post = .opened)

/-- Fold `call` over a list of `(time, outcome)` events. -/
def runCalls {ε α : Type} (cb : CircuitBreaker) :
    List (ℚ × Except ε α) → CircuitBreaker
  | [] => cb
  | (t, r) :: rest => runCalls ((cb.call t r).2.1) rest

/-- A success/failure pattern as protected-call outcomes. -/
def outcomeOf (b : Bool) : Except Unit Unit :=
  if b then .ok () else .error ()

/-- Run a success/failure pattern, every call at the same instant `t`. -/
def runBools (cb : CircuitBreaker) (t : ℚ) (outs : List Bool) :
    CircuitBreaker :=
  runCalls cb (outs.map fun b => (t, outcomeOf b))

/-- An external call that always succeeds with the same result. -/
def constOk {ε : Type} (res : AgentResult) : Nat → Except ε AgentResult :=
  fun _ => .ok res

/-! ## Helper lemmas -/

/-- Bumping a hit counter changes no key, value, or expiry. -/
lemma bumpHit_shape (rows : List (String × CacheEntry)) (key : String) :
    (bumpHit rows key).map (fun r => (r.1, r.2.value, r.2.expires_at))
      = rows.map (fun r => (r.1, r.2.value, r.2.expires_at)) := by
  induction rows with
  | nil => rfl
  | cons hd tl ih =>
      obtain ⟨k, e⟩ := hd
      by_cases h : k = key <;> simp [bumpHit, h, ih]

/-- A `get` that reports a miss leaves the row list untouched. -/
lemma cache_get_none_frame (c : EnhancedCache)
    (rows : List (String × CacheEntry)) (now : ℚ) (key : String)
    (hb : c.backend = .available rows)
    (hm : (c.get now key).1 = .ok none) :
    (c.get now key).2.backend = .available rows ∧
    (c.get now key).2.ttl = c.ttl := by
  unfold EnhancedCache.get at *
  rw [hb] at *
  cases h : lookupRow rows key with
  | none => simp [h]
  | some e =>
      simp only [h] at hm ⊢
      by_cases hx : e.expires_at > now <;> simp [hx] at hm ⊢

/-! ## C4: TTL is enforced at read time -/

/-- C4.  `EnhancedCache.get` returns a miss when the key is absent or the
entry's expiry is not strictly in the future; a value is only ever returned
from a present, unexpired entry; and the read evicts nothing — the row
list after a `get` has the same keys, values and expiries (only a
`hit_count` may change), so expiry is a read-time comparison of
`expires_at` with the current time, not an eager deletion. -/
theorem cache_get_read_time_expiry (c : EnhancedCache)
    (rows : List (String × CacheEntry)) (now : ℚ) (key : String)
    (hb : c.backend = .available rows) :
    (lookupRow rows key = none → (c.get now key).1 = .ok none) ∧
    (∀ e, lookupRow rows key = some e → e.expires_at ≤ now →
        (c.get now key).1 = .ok none) ∧
    (∀ v, (c.get now key).1 = .ok (some v) →
        ∃ e, lookupRow rows key = some e ∧ now < e.expires_at ∧
          v = e.value) ∧
    (∃ rows2, (c.get now key).2.backend = .available rows2 ∧
        rows2.map (fun r => (r.1, r.2.value, r.2.expires_at))
          = rows.map (fun r => (r.1, r.2.value, r.2.expires_at))) := by
  unfold EnhancedCache.get
  rw [hb]
  refine ⟨?_, ?_, ?_, ?_⟩
  · intro h; simp [h]
  · intro e h hx
    simp [h, not_lt.mpr hx]
  · intro v hv
    cases h : lookupRow rows key with
    | none => simp [h] at hv
    | some e =>
        simp only [h] at hv
        by_cases hx : e.expires_at > now
        · exact ⟨e, rfl, hx, by symm; simpa [hx] using hv⟩
        · simp [hx] at hv
  · cases h : lookupRow rows key with
    | none => exact ⟨rows, by simp [h], rfl⟩
    | some e =>
        by_cases hx : e.expires_at > now
        · exact ⟨bumpHit rows key, by simp [h, hx], bumpHit_shape rows key⟩
        · exact ⟨rows, by simp [h, hx], rfl⟩

/-- Witness for C4 on a one-row cache. -/
theorem cache_get_read_time_expiry_witness :
    (lookupRow [("k", ⟨"v", "a", "m", 0, 100, 0⟩)] "x" = none →
        ((⟨86400, .available [("k", ⟨"v", "a", "m", 0, 100, 0⟩)], 0, 0⟩
          : EnhancedCache).get 50 "x").1 = .ok none) ∧
    (∀ e, lookupRow [("k", ⟨"v", "a", "m", 0, 100, 0⟩)] "x" = some e →
        e.expires_at ≤ 50 →
        ((⟨86400, .available [("k", ⟨"v", "a", "m", 0, 100, 0⟩)], 0, 0⟩
          : EnhancedCache).get 50 "x").1 = .ok none) ∧
    (∀ v, ((⟨86400, .available [("k", ⟨"v", "a", "m", 0, 100, 0⟩)], 0, 0⟩
          : EnhancedCache).get 50 "x").1 = .ok (some v) →
        ∃ e, lookupRow [("k", ⟨"v", "a", "m", 0, 100, 0⟩)] "x" = some e ∧
          (50 : ℚ) < e.expires_at ∧ v = e.value) ∧
    (∃ rows2,
        ((⟨86400, .available [("k", ⟨"v", "a", "m", 0, 100, 0⟩)], 0, 0⟩
          : EnhancedCache).get 50 "x").2.backend = .available rows2 ∧
        rows2.map (fun r => (r.1, r.2.value, r.2.expires_at))
          = [("k", (⟨"v", "a", "m", 0, 100, 0⟩ : CacheEntry))].map
              (fun r => (r.1, r.2.value, r.2.expires_at))) :=
  cache_get_read_time_expiry _ _ 50 "x" rfl

/-! ## C5: cache backend failures are not swallowed -/

/-- C5 (divergence witness).  With an unavailable backend,
`EnhancedCache.get` and `EnhancedCache.store` raise (`sqlite3.connect`
fails and neither method has an exception handler), and in
`route_task_optimized` the raised error reaches the caller — `get` is not
treated as a miss and the failure is not swallowed, contradicting the
spec's degrade-to-`Miss`/no-op requirement. -/
theorem cache_unavailable_raises :
    ((⟨86400, .unavailable, 0, 0⟩ : EnhancedCache).get 0 "k").1
        = .error () ∧
    ((⟨86400, .unavailable, 0, 0⟩ : EnhancedCache).store 0 "k" "v" "a"
        "m").1 = .error () ∧
    (route_task_optimized
        ⟨⟨86400, .unavailable, 0, 0⟩, CircuitBreaker.init 5 60,
          RateLimiter.init 60 60 0, ⟨3, 1⟩, 0, 0, 0⟩ 0 "k"
        (fun _ => (.ok ⟨true, "A", "m", "out"⟩
          : Except Nat AgentResult))).1 = .error .cacheBackend := by
  refine ⟨rfl, rfl, rfl⟩

/-! ## C3: retry with exponential backoff -/

/-- Unfolding equation of `retryLoop` (its recursion is well-founded). -/
lemma retryLoop_eq {ε α : Type} (fn : Nat → Except ε α) (b : ℚ)
    (maxr k : Nat) :
    retryLoop fn b maxr k =
      if k < maxr then
        match fn k with
        | .ok v => (.ok v, 1, [])
        | .error e =>
            if k < maxr - 1 then
              let r := retryLoop fn b maxr (k + 1)
              (r.1, r.2.1 + 1, b * 2 ^ k :: r.2.2)
            else (.error (some e), 1, [])
      else (.error none, 0, []) := by
  rw [retryLoop]

/-- The attempt loop performs at most `maxr - k` invocations. -/
lemma retryLoop_calls_le {ε α : Type} (fn : Nat → Except ε α) (b : ℚ)
    (maxr : Nat) :
    ∀ (d k : Nat), maxr - k ≤ d → (retryLoop fn b maxr k).2.1 ≤ maxr - k := by
  intro d
  induction d with
  | zero =>
      intro k hk
      rw [retryLoop_eq]
      have : ¬ k < maxr := by omega
      simp [this]
  | succ d ih =>
      intro k hk
      rw [retryLoop_eq]
      by_cases h1 : k < maxr
      · simp only [h1, if_true]
        cases hfn : fn k with
        | ok v => simp; omega
        | error e =>
            by_cases h2 : k < maxr - 1
            · have := ih (k + 1) (by omega)
              simp [h2]
              omega
            · simp [h2]; omega
      · simp [h1]

/-- If attempts `k, …, k+d-1` fail and attempt `k+d` succeeds (all within
bounds), the loop from `k` returns that success immediately, after exactly
`d + 1` invocations and the geometric back-off sleeps
`b·2^k, …, b·2^(k+d-1)`. -/
lemma retryLoop_first_ok {ε α : Type} (fn : Nat → Except ε α) (b : ℚ)
    (maxr : Nat) :
    ∀ (d k : Nat) (v : α), k + d < maxr →
      (∀ j, k ≤ j → j < k + d → ∃ e, fn j = .error e) →
      fn (k + d) = .ok v →
      retryLoop fn b maxr k
        = (.ok v, d + 1, (List.range' k d).map (fun j => b * 2 ^ j)) := by
  intro d
  induction d with
  | zero =>
      intro k v hk _ hok
      rw [retryLoop_eq]
      simp only [Nat.add_zero] at hk hok
      simp [hk, hok]
  | succ d ih =>
      intro k v hk hfail hok
      obtain ⟨e, he⟩ := hfail k le_rfl (by omega)
      have h1 : k < maxr := by omega
      have h2 : k < maxr - 1 := by omega
      have hidx : (k + 1) + d = k + (d + 1) := by omega
      have h3 : retryLoop fn b maxr (k + 1)
          = (.ok v, d + 1, (List.range' (k + 1) d).map (fun j => b * 2 ^ j)) := by
        refine ih (k + 1) v (by omega) ?_ (by rw [hidx]; exact hok)
        intro j hj1 hj2
        exact hfail j (by omega) (by omega)
      rw [retryLoop_eq]
      simp [h1, h2, he, h3, List.range']

/-- If every attempt from `k` on (up to `maxr`) fails, the loop from `k`
re-raises the error of the last attempt after `maxr - k` invocations, with
sleeps after every failed attempt but the last. -/
lemma retryLoop_all_fail {ε α : Type} (fn : Nat → Except ε α) (b : ℚ)
    (maxr : Nat) :
    ∀ (d k : Nat), k + d + 1 = maxr →
      (∀ j, k ≤ j → j < maxr → ∃ e, fn j = .error e) →
      ∃ e, fn (maxr - 1) = .error e ∧
        retryLoop fn b maxr k
          = (.error (some e), d + 1,
              (List.range' k d).map (fun j => b * 2 ^ j)) := by
  intro d
  induction d with
  | zero =>
      intro k hk hfail
      obtain ⟨e, he⟩ := hfail k le_rfl (by omega)
      have hlast : maxr - 1 = k := by omega
      refine ⟨e, by rw [hlast]; exact he, ?_⟩
      rw [retryLoop_eq]
      have h1 : k < maxr := by omega
      have h2 : ¬ k < maxr - 1 := by omega
      simp [h1, h2, he]
  | succ d ih =>
      intro k hk hfail
      obtain ⟨e0, he0⟩ := hfail k le_rfl (by omega)
      obtain ⟨e, he, hrec⟩ := ih (k + 1) (by omega)
        (fun j hj1 hj2 => hfail j (by omega) hj2)
      refine ⟨e, he, ?_⟩
      rw [retryLoop_eq]
      have h1 : k < maxr := by omega
      have h2 : k < maxr - 1 := by omega
      simp [h1, h2, he0, hrec, List.range']

/-- C3.  For `maxAttempts = max_retries = m ≥ 1`:
`execute_with_retry` makes at most `m` invocations of `fn`; when the first
success is at attempt `k` (0-indexed) the success is returned immediately
after `k + 1` invocations, having slept `base_delay * 2^j` after each
failed attempt `j < k`; and when all `m` attempts fail the error of the
last attempt is re-raised unchanged, after sleeps for attempts
`0, …, m - 2` only. -/
theorem retry_executor_spec {ε α : Type} (h : RetryHandler)
    (fn : Nat → Except ε α) (hm : 1 ≤ h.max_retries) :
    ((h.execute_with_retry fn).2.1 ≤ h.max_retries) ∧
    (∀ k v, k < h.max_retries →
        (∀ j, j < k → ∃ e, fn j = .error e) → fn k = .ok v →
        h.execute_with_retry fn
          = (.ok v, k + 1,
              (List.range k).map (fun j => h.base_delay * 2 ^ j))) ∧
    ((∀ j, j < h.max_retries → ∃ e, fn j = .error e) →
        ∃ e, fn (h.max_retries - 1) = .error e ∧
          h.execute_with_retry fn
            = (.error (some e), h.max_retries,
                (List.range (h.max_retries - 1)).map
                  (fun j => h.base_delay * 2 ^ j))) := by
  unfold RetryHandler.execute_with_retry
  refine ⟨?_, ?_, ?_⟩
  · simpa using retryLoop_calls_le fn h.base_delay h.max_retries
      h.max_retries 0 (by omega)
  · intro k v hk hfail hok
    have := retryLoop_first_ok fn h.base_delay h.max_retries k 0 v
      (by omega) (fun j _ hj => hfail j (by omega)) (by simpa using hok)
    simpa [List.range_eq_range'] using this
  · intro hfail
    obtain ⟨e, he, hrun⟩ := retryLoop_all_fail fn h.base_delay h.max_retries
      (h.max_retries - 1) 0 (by omega) (fun j _ hj => hfail j hj)
    refine ⟨e, he, ?_⟩
    simpa [List.range_eq_range', Nat.sub_add_cancel hm] using hrun

/-- Witness for C3 with `max_retries = 3`, `base_delay = 1`, first success
at attempt 2. -/
theorem retry_executor_spec_witness :
    ((RetryHandler.execute_with_retry ⟨3, 1⟩
        (fun k => if k = 2 then .ok 7 else (.error k : Except Nat Nat))).2.1
      ≤ 3) ∧
    (RetryHandler.execute_with_retry ⟨3, 1⟩
        (fun k => if k = 2 then .ok 7 else (.error k : Except Nat Nat))
      = (.ok 7, 3, [1 * 2 ^ 0, 1 * 2 ^ 1])) := by
  have h := retry_executor_spec ⟨3, 1⟩
    (fun k => if k = 2 then .ok 7 else (.error k : Except Nat Nat))
    (by norm_num)
  refine ⟨h.1, ?_⟩
  have h2 := h.2.1 2 7 (by norm_num)
    (fun j hj => ⟨j, by interval_cases j <;> simp⟩) (by simp)
  simpa [List.range] using h2

/-! ## C6: token-bucket rate limiter -/

/-- The replenish-and-cap step of `acquire` is `min capacity (tokens +
elapsed · rate/per)` (the code writes the cap as an `if`). -/
lemma acquire_eq (s : RateLimiter) (now : ℚ) :
    s.acquire now =
      (if min s.rate (s.allowance + (now - s.last_check) * (s.rate / s.per))
          < 1 then
        ({ s with allowance := 0, last_check := now },
          (1 - min s.rate
              (s.allowance + (now - s.last_check) * (s.rate / s.per)))
            * (s.per / s.rate))
      else
        ({ s with
            allowance := min s.rate
              (s.allowance + (now - s.last_check) * (s.rate / s.per)) - 1
            last_check := now }, 0)) := by
  by_cases h : s.allowance + (now - s.last_check) * (s.rate / s.per) > s.rate
  · have hmin :
        min s.rate (s.allowance + (now - s.last_check) * (s.rate / s.per))
          = s.rate := min_eq_left h.le
    simp [RateLimiter.acquire, hmin, h]
  · have hmin :
        min s.rate (s.allowance + (now - s.last_check) * (s.rate / s.per))
          = s.allowance + (now - s.last_check) * (s.rate / s.per) :=
      min_eq_right (not_lt.mp h)
    simp [RateLimiter.acquire, hmin, h]

/-- C6.  Each `acquire` refills the allowance to
`min rate (allowance + elapsed · (rate/per))` and stamps `last_check :=
now`; if the refilled allowance is below one token the caller sleeps
`(1 - refilled) / (rate/per)` seconds (the code's
`(1 - refilled) · per/rate`) and the allowance is left at `0` after the
token is consumed, otherwise there is no sleep and exactly one token is
consumed; afterwards `0 ≤ allowance ≤ rate` holds. -/
theorem rate_limiter_token_bucket (s : RateLimiter) (now : ℚ)
    (hr : 0 < s.rate) (hp : 0 < s.per) :
    ((s.acquire now).1.rate = s.rate ∧ (s.acquire now).1.per = s.per ∧
      (s.acquire now).1.last_check = now) ∧
    (min s.rate (s.allowance + (now - s.last_check) * (s.rate / s.per)) < 1 →
      (s.acquire now).2
          = (1 - min s.rate
              (s.allowance + (now - s.last_check) * (s.rate / s.per)))
            / (s.rate / s.per) ∧
      (s.acquire now).1.allowance = 0) ∧
    (1 ≤ min s.rate
        (s.allowance + (now - s.last_check) * (s.rate / s.per)) →
      (s.acquire now).2 = 0 ∧
      (s.acquire now).1.allowance
          = min s.rate
              (s.allowance + (now - s.last_check) * (s.rate / s.per)) - 1) ∧
    (0 ≤ (s.acquire now).1.allowance ∧
      (s.acquire now).1.allowance ≤ s.rate) := by
  have hrne : s.rate ≠ 0 := ne_of_gt hr
  have hpne : s.per ≠ 0 := ne_of_gt hp
  have hdiv :
      ∀ x : ℚ, x * (s.per / s.rate) = x / (s.rate / s.per) := by
    intro x
    field_simp
  rw [acquire_eq]
  by_cases h : min s.rate
      (s.allowance + (now - s.last_check) * (s.rate / s.per)) < 1
  · rw [if_pos h]
    exact ⟨⟨rfl, rfl, rfl⟩, fun _ => ⟨hdiv _, rfl⟩,
      fun hge => absurd h (not_lt.mpr hge), le_refl 0, hr.le⟩
  · rw [if_neg h]
    have hge := not_lt.mp h
    have hle : min s.rate
        (s.allowance + (now - s.last_check) * (s.rate / s.per)) ≤ s.rate :=
      min_le_left _ _
    exact ⟨⟨rfl, rfl, rfl⟩, fun hlt => absurd hlt h,
      fun _ => ⟨rfl, rfl⟩, by linarith, by linarith⟩

/-- Witness for C6 at the reference configuration (60 tokens per 60 s),
from a drained bucket queried at the same instant. -/
theorem rate_limiter_token_bucket_witness :
    (0 : ℚ) < 60 ∧
    ((({ rate := 60, per := 60, allowance := 0, last_check := 10 }
        : RateLimiter).acquire 10).1.allowance = 0 ∧
      0 ≤ (({ rate := 60, per := 60, allowance := 0, last_check := 10 }
        : RateLimiter).acquire 10).1.allowance ∧
      (({ rate := 60, per := 60, allowance := 0, last_check := 10 }
        : RateLimiter).acquire 10).1.allowance ≤ 60) := by
  have h := rate_limiter_token_bucket
    ({ rate := 60, per := 60, allowance := 0, last_check := 10 }
      : RateLimiter) 10 (by norm_num) (by norm_num)
  refine ⟨by norm_num, (h.2.1 (by norm_num)).2, h.2.2.2⟩

/-! ## C2: circuit-breaker state machine -/

/-- While open with at most `recovery_timeout` elapsed, `is_open` reports
open and changes nothing. -/
lemma is_open_fail_fast (cb : CircuitBreaker) (now t : ℚ)
    (hs : cb.state = .opened) (hl : cb.last_failure_time = some t)
    (hle : now - t ≤ cb.recovery_timeout) :
    cb.is_open now = (true, cb) := by
  have hnot : ¬ (t ≠ 0 ∧ now - t > cb.recovery_timeout) :=
    fun hc => absurd hc.2 (not_lt.mpr hle)
  simp [CircuitBreaker.is_open, hs, hl, hnot]

/-- While open with strictly more than `recovery_timeout` elapsed (and a
truthy failure time), `is_open` flips the state to half-open. -/
lemma is_open_probe (cb : CircuitBreaker) (now t : ℚ)
    (hs : cb.state = .opened) (hl : cb.last_failure_time = some t)
    (ht : t ≠ 0) (hgt : cb.recovery_timeout < now - t) :
    cb.is_open now = (false, { cb with state := .halfOpen }) := by
  simp [CircuitBreaker.is_open, hs, hl, ht, hgt]

/-- Away from the open state, `is_open` reports closed and changes
nothing. -/
lemma is_open_not_opened (cb : CircuitBreaker) (now : ℚ)
    (hs : cb.state ≠ .opened) :
    cb.is_open now = (false, cb) := by
  simp [CircuitBreaker.is_open, hs]

/-- If `call` invoked the protected function, the `is_open` check had
reported closed. -/
lemma call_invoked_not_open {ε α : Type} (cb : CircuitBreaker) (now : ℚ)
    (fnResult : Except ε α)
    (h : (cb.call now fnResult).2.2 = true) :
    (cb.is_open now).1 = false := by
  cases hio : (cb.is_open now).1 with
  | false => rfl
  | true =>
      exfalso
      simp only [CircuitBreaker.call, hio, if_true] at h
      exact Bool.noConfusion h

/-- If the breaker was open and `call` still invoked the function, the
check must have taken the probe branch: a truthy failure time exists with
strictly more than `recovery_timeout` elapsed. -/
lemma call_invoked_open_probe {ε α : Type} (cb : CircuitBreaker) (now : ℚ)
    (fnResult : Except ε α) (hs : cb.state = .opened)
    (h : (cb.call now fnResult).2.2 = true) :
    ∃ t, cb.last_failure_time = some t ∧ t ≠ 0 ∧
      cb.recovery_timeout < now - t := by
  have hio := call_invoked_not_open cb now fnResult h
  cases hl : cb.last_failure_time with
  | none =>
      exfalso
      have hop : cb.is_open now = (true, cb) := by
        simp [CircuitBreaker.is_open, hs, hl]
      rw [hop] at hio
      exact Bool.noConfusion hio
  | some t =>
      by_cases hc : t ≠ 0 ∧ cb.recovery_timeout < now - t
      · exact ⟨t, rfl, hc.1, hc.2⟩
      · exfalso
        have : cb.is_open now = (true, cb) := by
          simp only [CircuitBreaker.is_open, hs, if_true, hl]
          have : ¬ (t ≠ 0 ∧ now - t > cb.recovery_timeout) := hc
          simp [this]
        rw [this] at hio
        exact Bool.noConfusion hio

/-- `is_open` changes neither the threshold nor the failure count. -/
lemma is_open_fields (cb : CircuitBreaker) (now : ℚ) :
    (cb.is_open now).2.failure_threshold = cb.failure_threshold ∧
    (cb.is_open now).2.failure_count = cb.failure_count := by
  unfold CircuitBreaker.is_open
  split
  · cases cb.last_failure_time with
    | none => exact ⟨rfl, rfl⟩
    | some t => dsimp only; split <;> exact ⟨rfl, rfl⟩
  · exact ⟨rfl, rfl⟩

/-- The update `call` performs on an invoked failure. -/
lemma call_err_eq {ε α : Type} (cb : CircuitBreaker) (now : ℚ) (e : ε)
    (hio : (cb.is_open now).1 = false) :
    cb.call now (Except.error e : Except ε α)
      = (.error (.fnError e),
          if cb.failure_threshold ≤ cb.failure_count + 1 then
            { (cb.is_open now).2 with
                failure_count := cb.failure_count + 1
                last_failure_time := some now, state := .opened }
          else
            { (cb.is_open now).2 with
                failure_count := cb.failure_count + 1
                last_failure_time := some now }, true) := by
  obtain ⟨hthr, hcnt⟩ := is_open_fields cb now
  simp only [CircuitBreaker.call, hio, Bool.false_eq_true, if_false]
  rw [hcnt, hthr]

/-- The update `call` performs on an invoked success. -/
lemma call_ok_eq {ε α : Type} (cb : CircuitBreaker) (now : ℚ) (v : α)
    (hio : (cb.is_open now).1 = false) :
    cb.call now (Except.ok v : Except ε α)
      = (.ok v,
          if (cb.is_open now).2.state = .halfOpen then
            { (cb.is_open now).2 with state := .closed, failure_count := 0 }
          else (cb.is_open now).2, true) := by
  simp only [CircuitBreaker.call, hio, Bool.false_eq_true, if_false]

/-- The breaker invariant holds initially. -/
lemma breakerInv_init (th : Nat) (timeout : ℚ) :
    BreakerInv (CircuitBreaker.init th timeout) :=
  fun h => absurd rfl h

/-- The breaker invariant is preserved by the `is_open` check. -/
lemma breakerInv_is_open (cb : CircuitBreaker) (now : ℚ)
    (hinv : BreakerInv cb) : BreakerInv (cb.is_open now).2 := by
  unfold CircuitBreaker.is_open
  split
  · rename_i hs
    cases hl : cb.last_failure_time with
    | none => exact hinv
    | some t =>
        dsimp only
        split
        · intro _
          have h := hinv (by rw [hs]; exact fun h => nomatch h)
          rw [hl] at h
          exact h
        · exact hinv
  · exact hinv

/-- The breaker invariant is preserved by every `call` made at a positive
time. -/
lemma breakerInv_call {ε α : Type} (cb : CircuitBreaker) (now : ℚ)
    (fnResult : Except ε α) (hnow : 0 < now) (hinv : BreakerInv cb) :
    BreakerInv (cb.call now fnResult).2.1 := by
  have hmidinv := breakerInv_is_open cb now hinv
  obtain ⟨hthr, hcnt⟩ := is_open_fields cb now
  cases hio : (cb.is_open now).1 with
  | true =>
      have : cb.call now fnResult
          = (.error .circuitOpen, (cb.is_open now).2, false) := by
        simp [CircuitBreaker.call, hio]
      rw [this]
      exact hmidinv
  | false =>
      cases fnResult with
      | ok v =>
          rw [call_ok_eq cb now v hio]
          by_cases hmid : (cb.is_open now).2.state = .halfOpen
          · rw [if_pos hmid]
            intro h
            exact absurd rfl h
          · rw [if_neg hmid]
            exact hmidinv
      | error e =>
          rw [call_err_eq cb now e hio]
          by_cases hth : cb.failure_threshold ≤ cb.failure_count + 1
          · rw [if_pos hth]
            intro _
            exact ⟨by simpa [hthr] using hth, now, rfl, hnow⟩
          · rw [if_neg hth]
            intro h
            have h2 := hmidinv h
            have h3 : cb.failure_threshold ≤ cb.failure_count := by
              have h4 := h2.1
              rw [hthr, hcnt] at h4
              exact h4
            refine ⟨?_, now, rfl, hnow⟩
            show (cb.is_open now).2.failure_threshold ≤ cb.failure_count + 1
            rw [hthr]
            exact le_trans h3 (Nat.le_succ _)

/-- C2 (amended at the recovery boundary).  `call` fails fast with the
circuit-open error, without invoking `fn` or changing any field, exactly
while `now - lastFailureAt ≤ recoveryTimeout` (at equality the code still
fails fast: the probe requires a strict `>`); when strictly more than
`recoveryTimeout` has elapsed the function is invoked as a probe, whose
success moves the breaker to `closed` with `failure_count = 0` and whose
failure re-opens it; a success in `halfOpen` moves to `closed` and resets
the count; every invoked failure increments `failure_count`, stamps
`last_failure_time := now`, and opens the breaker as soon as the
incremented count meets the threshold (in particular always from
`halfOpen`, by the reachability invariant); in `closed` the function is
always invoked; and both phases of the call perform only transitions of
the cycle `Closed → Open → HalfOpen → Closed/Open`. -/
theorem circuit_breaker_cycle {ε α : Type} (cb : CircuitBreaker) (now : ℚ)
    (fnResult : Except ε α) (hinv : BreakerInv cb) :
    (∀ t, cb.state = .opened → cb.last_failure_time = some t →
        now - t ≤ cb.recovery_timeout →
        cb.call now fnResult = (.error .circuitOpen, cb, false)) ∧
    (∀ t, cb.state = .opened → cb.last_failure_time = some t → 0 < t →
        cb.recovery_timeout < now - t →
        (cb.call now fnResult).2.2 = true ∧
        (∀ v, fnResult = .ok v →
            (cb.call now fnResult).1 = .ok v ∧
            (cb.call now fnResult).2.1.state = .closed ∧
            (cb.call now fnResult).2.1.failure_count = 0) ∧
        (∀ e, fnResult = .error e →
            (cb.call now fnResult).1 = .error (.fnError e) ∧
            (cb.call now fnResult).2.1.state = .opened)) ∧
    (cb.state = .halfOpen → ∀ v, fnResult = .ok v →
        cb.call now fnResult
          = (.ok v, { cb with state := .closed, failure_count := 0 },
              true)) ∧
    (∀ e, fnResult = .error e → (cb.call now fnResult).2.2 = true →
        (cb.call now fnResult).2.1.failure_count = cb.failure_count + 1 ∧
        (cb.call now fnResult).2.1.last_failure_time = some now ∧
        (cb.failure_threshold ≤ cb.failure_count + 1 →
            (cb.call now fnResult).2.1.state = .opened) ∧
        (cb.state = .halfOpen →
            (cb.call now fnResult).2.1.state = .opened)) ∧
    (cb.state = .closed → (cb.call now fnResult).2.2 = true) ∧
    (cbPhase1Legal cb.state (cb.is_open now).2.state ∧
      cbPhase2Legal (cb.is_open now).2.state
        (cb.call now fnResult).2.1.state) := by
  refine ⟨?_, ?_, ?_, ?_, ?_, ?_⟩
  · intro t hs hl hle
    have hio := is_open_fail_fast cb now t hs hl hle
    simp [CircuitBreaker.call, hio]
  · intro t hs hl ht hgt
    have hio := is_open_probe cb now t hs hl (ne_of_gt ht) hgt
    have hio1 : (cb.is_open now).1 = false := by rw [hio]
    have hth := (hinv (by rw [hs]; exact fun h => nomatch h)).1
    refine ⟨?_, ?_, ?_⟩
    · cases fnResult with
      | ok v => rw [call_ok_eq cb now v hio1]
      | error e => rw [call_err_eq cb now e hio1]
    · intro v hv
      subst hv
      rw [call_ok_eq cb now v hio1, hio]
      simp
    · intro e he
      subst he
      rw [call_err_eq cb now e hio1, hio]
      have : cb.failure_threshold ≤ cb.failure_count + 1 :=
        le_trans hth (Nat.le_succ _)
      simp [this]
  · intro hs v hv
    subst hv
    have hio := is_open_not_opened cb now (by rw [hs]; exact fun h => nomatch h)
    have hio1 : (cb.is_open now).1 = false := by rw [hio]
    rw [call_ok_eq cb now v hio1, hio]
    simp [hs]
  · intro e he hinvoked
    subst he
    have hio1 := call_invoked_not_open cb now _ hinvoked
    rw [call_err_eq cb now e hio1]
    refine ⟨?_, ?_, ?_, ?_⟩
    · by_cases hth : cb.failure_threshold ≤ cb.failure_count + 1 <;>
        simp [hth]
    · by_cases hth : cb.failure_threshold ≤ cb.failure_count + 1 <;>
        simp [hth]
    · intro hth; simp [hth]
    · intro hs
      have hth := (hinv (by rw [hs]; exact fun h => nomatch h)).1
      have : cb.failure_threshold ≤ cb.failure_count + 1 :=
        le_trans hth (Nat.le_succ _)
      simp [this]
  · intro hs
    have hio := is_open_not_opened cb now (by rw [hs]; exact fun h => nomatch h)
    have hio1 : (cb.is_open now).1 = false := by rw [hio]
    cases fnResult with
    | ok v => rw [call_ok_eq cb now v hio1]
    | error e => rw [call_err_eq cb now e hio1]
  · constructor
    · unfold CircuitBreaker.is_open cbPhase1Legal
      split
      · rename_i hs
        cases hl : cb.last_failure_time with
        | none => simp [hs]
        | some t =>
            dsimp only
            split
            · right; exact ⟨hs, rfl⟩
            · simp [hs]
      · simp
    · cases hio : (cb.is_open now).1 with
      | true =>
          have : cb.call now fnResult
              = (.error .circuitOpen, (cb.is_open now).2, false) := by
            simp [CircuitBreaker.call, hio]
          rw [this]
          exact Or.inl rfl
      | false =>
          cases fnResult with
          | ok v =>
              rw [call_ok_eq cb now v hio]
              by_cases hmid : (cb.is_open now).2.state = .halfOpen
              · rw [if_pos hmid]
                exact Or.inr (Or.inr (Or.inl ⟨hmid, rfl⟩))
              · rw [if_neg hmid]
                exact Or.inl rfl
          | error e =>
              rw [call_err_eq cb now e hio]
              by_cases hth : cb.failure_threshold ≤ cb.failure_count + 1
              · rw [if_pos hth]
                cases hmid : (cb.is_open now).2.state with
                | closed => exact Or.inr (Or.inl ⟨rfl, rfl⟩)
                | opened => exact Or.inl rfl
                | halfOpen => exact Or.inr (Or.inr (Or.inr ⟨rfl, rfl⟩))
              · rw [if_neg hth]
                exact Or.inl rfl

/-- Counterexample to C2 as stated: at `now - lastFailureAt =
recoveryTimeout` exactly (timeout 60, failure at 100, call at 160) the
recovery timeout has elapsed, yet the code does not transition to
half-open and does not invoke `fn` — it fails fast and stays open,
because the probe branch requires a strict `>`. -/
theorem circuit_breaker_recovery_boundary_cex :
    (60 : ℚ) ≤ 160 - 100 ∧
    ((⟨5, 60, 5, some 100, .opened⟩ : CircuitBreaker).call 160
        (Except.ok 0 : Except Nat Nat)).2.2 = false ∧
    ((⟨5, 60, 5, some 100, .opened⟩ : CircuitBreaker).call 160
        (Except.ok 0 : Except Nat Nat)).1 = .error .circuitOpen ∧
    ((⟨5, 60, 5, some 100, .opened⟩ : CircuitBreaker).call 160
        (Except.ok 0 : Except Nat Nat)).2.1.state = .opened := by
  norm_num [CircuitBreaker.call, CircuitBreaker.is_open]

/-- Witness for C2 on a fresh closed breaker: the function is invoked and
both phases stay within the legal cycle. -/
theorem circuit_breaker_cycle_witness :
    (((CircuitBreaker.init 5 60).call 1
        (Except.ok 0 : Except Nat Nat)).2.2 = true) ∧
    cbPhase1Legal (CircuitBreaker.init 5 60).state
      (((CircuitBreaker.init 5 60).is_open 1).2.state) ∧
    cbPhase2Legal (((CircuitBreaker.init 5 60).is_open 1).2.state)
      (((CircuitBreaker.init 5 60).call 1
        (Except.ok 0 : Except Nat Nat)).2.1.state) := by
  have h := circuit_breaker_cycle (CircuitBreaker.init 5 60) 1
    (Except.ok 0 : Except Nat Nat)
    (fun hc => absurd rfl hc)
  exact ⟨h.2.2.2.2.1 rfl, h.2.2.2.2.2.1, h.2.2.2.2.2.2⟩

/-! ## C10: failures accumulate across the breaker's history -/

/-- `call` fails fast, unchanged, while open within the window. -/
lemma call_fail_fast {ε α : Type} (cb : CircuitBreaker) (now t : ℚ)
    (fnResult : Except ε α) (hs : cb.state = .opened)
    (hl : cb.last_failure_time = some t)
    (hle : now - t ≤ cb.recovery_timeout) :
    cb.call now fnResult = (.error .circuitOpen, cb, false) := by
  have hio := is_open_fail_fast cb now t hs hl hle
  simp [CircuitBreaker.call, hio]

/-- A successful call on a closed breaker returns the value and leaves the
whole breaker state untouched. -/
lemma call_closed_ok_frame {ε α : Type} (cb : CircuitBreaker) (now : ℚ)
    (v : α) (hs : cb.state = .closed) :
    cb.call now (Except.ok v : Except ε α) = (.ok v, cb, true) := by
  have hio := is_open_not_opened cb now (by rw [hs]; exact fun h => nomatch h)
  have hio1 : (cb.is_open now).1 = false := by rw [hio]
  rw [call_ok_eq cb now v hio1, hio]
  simp [hs]

/-- A failing call on a closed breaker increments the count, stamps the
time, and opens exactly when the incremented count meets the threshold. -/
lemma call_closed_err {ε α : Type} (cb : CircuitBreaker) (now : ℚ) (e : ε)
    (hs : cb.state = .closed) :
    cb.call now (Except.error e : Except ε α)
      = (.error (.fnError e),
          if cb.failure_threshold ≤ cb.failure_count + 1 then
            { cb with failure_count := cb.failure_count + 1
                      last_failure_time := some now, state := .opened }
          else
            { cb with failure_count := cb.failure_count + 1
                      last_failure_time := some now }, true) := by
  have hio := is_open_not_opened cb now (by rw [hs]; exact fun h => nomatch h)
  have hio1 : (cb.is_open now).1 = false := by rw [hio]
  rw [call_err_eq cb now e hio1, hio]

/-- Once open with the failure stamped at `t`, further calls at time `t`
change nothing (the recovery window has not elapsed). -/
lemma runBools_opened_frozen (t : ℚ) :
    ∀ (outs : List Bool) (cb : CircuitBreaker), cb.state = .opened →
      cb.last_failure_time = some t → 0 < cb.recovery_timeout →
      runBools cb t outs = cb := by
  intro outs
  induction outs with
  | nil => intro cb _ _ _; rfl
  | cons b rest ih =>
      intro cb hs hl hto
      have hcall : cb.call t (outcomeOf b) = (.error .circuitOpen, cb, false) :=
        call_fail_fast cb t t (outcomeOf b) hs hl (by linarith)
      show runCalls ((cb.call t (outcomeOf b)).2.1)
          (rest.map fun b => (t, outcomeOf b)) = cb
      rw [hcall]
      exact ih cb hs hl hto

/-- From a closed breaker whose count is still below the threshold, any
pattern carrying enough failures to reach the threshold ends with the
breaker open — successes in the closed state do not reset anything. -/
lemma runBools_reaches_open (t : ℚ) :
    ∀ (outs : List Bool) (cb : CircuitBreaker), cb.state = .closed →
      0 < cb.recovery_timeout → 0 < t →
      cb.failure_threshold ≤ cb.failure_count + outs.count false →
      cb.failure_count < cb.failure_threshold →
      (runBools cb t outs).state = .opened := by
  intro outs
  induction outs with
  | nil =>
      intro cb _ _ _ hth hlt
      simp only [List.count_nil] at hth
      omega
  | cons b rest ih =>
      intro cb hs hto ht hth hlt
      cases b with
      | true =>
          have hcall := call_closed_ok_frame cb t () (ε := Unit) hs
          show (runCalls ((cb.call t (outcomeOf true)).2.1)
              (rest.map fun b => (t, outcomeOf b))).state = .opened
          rw [show outcomeOf true = (Except.ok () : Except Unit Unit) from rfl,
            hcall]
          refine ih cb hs hto ht ?_ hlt
          simpa using hth
      | false =>
          have hcall := call_closed_err cb t () (α := Unit) hs
          have hcount : (false :: rest).count false = rest.count false + 1 := by
            simp
          show (runCalls ((cb.call t (outcomeOf false)).2.1)
              (rest.map fun b => (t, outcomeOf b))).state = .opened
          rw [show outcomeOf false = (Except.error () : Except Unit Unit)
              from rfl, hcall]
          by_cases hth2 : cb.failure_threshold ≤ cb.failure_count + 1
          · rw [if_pos hth2]
            have hfroz := runBools_opened_frozen t rest
              { cb with failure_count := cb.failure_count + 1
                        last_failure_time := some t, state := .opened }
              rfl rfl hto
            exact congrArg CircuitBreaker.state hfroz
          · rw [if_neg hth2]
            refine ih _ hs hto ht ?_ (by simpa using hth2)
            rw [hcount] at hth
            simpa using by omega

/-- C10.  A successful call while the breaker is closed changes nothing
(`failure_count`, `state`, `last_failure_time` all keep their values —
the count is reset only by a half-open success); consequently, starting
from a fresh breaker, any success/failure history containing at least
`failure_threshold` failures — however many closed-state successes are
interleaved — leaves the breaker open. -/
theorem breaker_failure_accounting :
    (∀ (ε α : Type) (cb : CircuitBreaker) (now : ℚ) (v : α),
        cb.state = .closed →
        cb.call now (Except.ok v : Except ε α) = (.ok v, cb, true)) ∧
    (∀ (th : Nat) (timeout t : ℚ) (outs : List Bool),
        1 ≤ th → 0 < timeout → 0 < t → th ≤ outs.count false →
        (runBools (CircuitBreaker.init th timeout) t outs).state
          = .opened) := by
  refine ⟨fun ε α cb now v hs => call_closed_ok_frame cb now v hs, ?_⟩
  intro th timeout t outs hth hto ht hcnt
  exact runBools_reaches_open t outs (CircuitBreaker.init th timeout) rfl
    hto ht (by simpa [CircuitBreaker.init] using hcnt)
    (by simpa [CircuitBreaker.init] using hth)

/-- Witness for C10: two closed-state successes interleave with five
failures (`threshold = 5`); the run ends open, and a closed success is a
no-op on the state. -/
theorem breaker_failure_accounting_witness :
    ((⟨5, 60, 2, none, .closed⟩ : CircuitBreaker).call 3
        (Except.ok 0 : Except Nat Nat)
      = (.ok 0, ⟨5, 60, 2, none, .closed⟩, true)) ∧
    (runBools (CircuitBreaker.init 5 60) 1
        [true, false, false, true, false, false, false]).state
      = .opened := by
  refine ⟨breaker_failure_accounting.1 Nat Nat _ 3 0 rfl, ?_⟩
  exact breaker_failure_accounting.2 5 60 1
    [true, false, false, true, false, false, false]
    (by norm_num) (by norm_num) (by norm_num) (by simp)

/-! ## C9: debounce coalescing -/

/-- After an event installs a timer, a burst whose successive gaps stay
strictly below `delay` keeps cancelling it, and only the last payload
runs. -/
lemma debounceGo_burst {π : Type} (delay : ℚ) :
    ∀ (events : List (ℚ × π)) (t : ℚ) (p : π),
      List.Chain' (fun a b => a.1 ≤ b.1 ∧ b.1 - a.1 < delay)
        ((t, p) :: events) →
      debounceGo delay (some (t + delay, p)) events
        = [(((t, p) :: events).getLast (by simp)).2] := by
  intro events
  induction events with
  | nil => intro t p _; rfl
  | cons e rest ih =>
      intro t p hchain
      obtain ⟨t2, p2⟩ := e
      have hrel := List.chain'_cons.mp hchain
      have hgap : t2 - t < delay := hrel.1.2
      have hnofire : ¬ t + delay ≤ t2 := by
        intro hc
        linarith
      show (if t + delay ≤ t2 then
          p :: debounceGo delay (some (t2 + delay, p2)) rest
        else debounceGo delay (some (t2 + delay, p2)) rest)
          = _
      rw [if_neg hnofire]
      rw [ih t2 p2 hrel.2]
      simp [List.getLast_cons]

/-- C9.  A non-empty burst of events for one key, with consecutive
arrival gaps strictly less than the debounce delay, produces exactly one
execution, carrying the payload of the last event: each arrival cancels
the pending timer for the key (so earlier payloads are silently dropped,
and the key holds at most one pending timer, the model's single
`Option` slot). -/
theorem debounce_coalesces {π : Type} (delay : ℚ) (events : List (ℚ × π))
    (hne : events ≠ []) (_hd : 0 < delay)
    (hchain : List.Chain' (fun a b => a.1 ≤ b.1 ∧ b.1 - a.1 < delay)
      events) :
    Debouncer.debounceRun delay events = [(events.getLast hne).2] := by
  cases events with
  | nil => exact absurd rfl hne
  | cons e rest =>
      obtain ⟨t, p⟩ := e
      show debounceGo delay (some (t + delay, p)) rest = _
      exact debounceGo_burst delay rest t p hchain

/-- Witness for C9: three events 0.25 s and 0.15 s apart with a 0.5 s
delay execute only the last payload. -/
theorem debounce_coalesces_witness :
    Debouncer.debounceRun (1/2 : ℚ) [(0, "a"), (1/4, "b"), (2/5, "c")]
      = ["c"] := by
  have h := debounce_coalesces (1/2 : ℚ)
    [(0, "a"), (1/4, "b"), (2/5, "c")] (by simp) (by norm_num)
    (by constructor
        · constructor <;> norm_num
        · constructor
          · constructor <;> norm_num
          · simp)
  simpa using h

/-! ## C8: batch flush dispatch -/

/-- C8 (divergence witness).  The flush dispatches every batch item as its
own gathered coroutine and collects one outcome per item (so one item's
failure could not abort the others), but `process_single` is an empty stub
(`pass` with a placeholder comment): every outcome is Python `None` and
the orchestrator's `execute` pipeline is invoked zero times — not once per
flushed item as the claim states. -/
theorem batch_dispatch_stub (batch : List String) :
    (BatchProcessor.process_batch_dispatch batch).1.length = batch.length ∧
    (∀ r, r ∈ (BatchProcessor.process_batch_dispatch batch).1 →
        r = .ok none) ∧
    (BatchProcessor.process_batch_dispatch batch).2 = 0 := by
  refine ⟨by simp [BatchProcessor.process_batch_dispatch], ?_, ?_⟩
  · intro r hr
    simp only [BatchProcessor.process_batch_dispatch,
      BatchProcessor.process_single, List.mem_map] at hr
    obtain ⟨t, -, ht⟩ := hr
    exact ht.symm
  · simp [BatchProcessor.process_batch_dispatch,
      BatchProcessor.process_single]

/-! ## C1: the execute pipeline -/

/-- Behavior of the portion of `route_task_optimized` after a cache miss,
against an available backend. -/
lemma route_miss_spec {ε : Type} (o : Orchestrator) (now : ℚ)
    (prompt : String) (fn : Nat → Except ε AgentResult)
    (rows : List (String × CacheEntry))
    (hb : o.cache.backend = .available rows) :
    (route_miss o now prompt fn).2.2.rl_acquired = true ∧
    (route_miss o now prompt fn).2.1.rate_limiter
      = (o.rate_limiter.acquire now).1 ∧
    (route_miss o now prompt fn).2.1.circuit_breaker
      = (o.circuit_breaker.call now
          (o.retry_handler.execute_with_retry fn).1).2.1 ∧
    (route_miss o now prompt fn).2.2.external_invocations
      = (if (o.circuit_breaker.call now
            (o.retry_handler.execute_with_retry fn).1).2.2 then
          (o.retry_handler.execute_with_retry fn).2.1
        else 0) ∧
    (∀ res, (o.circuit_breaker.call now
          (o.retry_handler.execute_with_retry fn).1).1 = .ok res →
        res.success = true →
        (route_miss o now prompt fn).1 = .ok (.fresh res) ∧
        (route_miss o now prompt fn).2.2.stored = true ∧
        (route_miss o now prompt fn).2.1.cache.backend
          = .available (insertOrReplace rows prompt
              ⟨res.output, res.agent_name, res.model_used, now,
                now + o.cache.ttl, 0⟩)) ∧
    (∀ res, (o.circuit_breaker.call now
          (o.retry_handler.execute_with_retry fn).1).1 = .ok res →
        res.success = false →
        (route_miss o now prompt fn).1 = .ok (.fresh res) ∧
        (route_miss o now prompt fn).2.2.stored = false ∧
        (route_miss o now prompt fn).2.1.cache.backend
          = .available rows) ∧
    (∀ e, (o.circuit_breaker.call now
          (o.retry_handler.execute_with_retry fn).1).1 = .error e →
        (route_miss o now prompt fn).1 = .error (.breakerErr e) ∧
        (route_miss o now prompt fn).2.2.stored = false ∧
        (route_miss o now prompt fn).2.1.cache.backend
          = .available rows) := by
  cases hcb : (o.circuit_breaker.call now
      (o.retry_handler.execute_with_retry fn).1).1 with
  | ok res =>
      by_cases hsucc : res.success = true
      · refine ⟨?_, ?_, ?_, ?_, ?_, ?_, ?_⟩ <;>
          simp_all [route_miss, EnhancedCache.store, hb, hcb, hsucc]
      · refine ⟨?_, ?_, ?_, ?_, ?_, ?_, ?_⟩ <;>
          simp_all [route_miss, EnhancedCache.store, hb, hcb, hsucc]
  | error e =>
      refine ⟨?_, ?_, ?_, ?_, ?_, ?_, ?_⟩ <;>
        simp_all [route_miss, hcb]

/-- C1 (amended at the empty-string hit).  `route_task_optimized`
consults the cache first; a hit with a non-empty value returns
immediately, tagged `fromCache`, touching neither the rate limiter nor
the circuit breaker nor the external call; on a miss it acquires a
rate-limiter token and runs
`circuit_breaker.call(retry_handler.execute_with_retry(route_task))`; a
successful `AgentResult` (`success = true`) is stored in the cache with
expiry `now + ttl`, while a breaker/retry error or an unsuccessful
result leaves the cache rows unchanged — failures are never cached. -/
theorem route_cache_pipeline {ε : Type} (o : Orchestrator) (now : ℚ)
    (prompt : String) (fn : Nat → Except ε AgentResult)
    (rows : List (String × CacheEntry))
    (hb : o.cache.backend = .available rows) :
    (∀ v, (o.cache.get now prompt).1 = .ok (some v) → v ≠ "" →
        (route_task_optimized o now prompt fn).1 = .ok (.fromCache v) ∧
        (route_task_optimized o now prompt fn).2.2
          = ⟨false, 0, 0, false⟩ ∧
        (route_task_optimized o now prompt fn).2.1.circuit_breaker
          = o.circuit_breaker ∧
        (route_task_optimized o now prompt fn).2.1.rate_limiter
          = o.rate_limiter) ∧
    ((o.cache.get now prompt).1 = .ok none →
        (route_task_optimized o now prompt fn).2.2.rl_acquired = true ∧
        (route_task_optimized o now prompt fn).2.1.rate_limiter
          = (o.rate_limiter.acquire now).1 ∧
        (route_task_optimized o now prompt fn).2.1.circuit_breaker
          = (o.circuit_breaker.call now
              (o.retry_handler.execute_with_retry fn).1).2.1 ∧
        (route_task_optimized o now prompt fn).2.2.external_invocations
          = (if (o.circuit_breaker.call now
                (o.retry_handler.execute_with_retry fn).1).2.2 then
              (o.retry_handler.execute_with_retry fn).2.1
            else 0) ∧
        (∀ res, (o.circuit_breaker.call now
              (o.retry_handler.execute_with_retry fn).1).1 = .ok res →
            res.success = true →
            (route_task_optimized o now prompt fn).1 = .ok (.fresh res) ∧
            (route_task_optimized o now prompt fn).2.2.stored = true ∧
            (route_task_optimized o now prompt fn).2.1.cache.backend
              = .available (insertOrReplace rows prompt
                  ⟨res.output, res.agent_name, res.model_used, now,
                    now + o.cache.ttl, 0⟩)) ∧
        (∀ res, (o.circuit_breaker.call now
              (o.retry_handler.execute_with_retry fn).1).1 = .ok res →
            res.success = false →
            (route_task_optimized o now prompt fn).1 = .ok (.fresh res) ∧
            (route_task_optimized o now prompt fn).2.2.stored = false ∧
            (route_task_optimized o now prompt fn).2.1.cache.backend
              = .available rows) ∧
        (∀ e, (o.circuit_breaker.call now
              (o.retry_handler.execute_with_retry fn).1).1 = .error e →
            (route_task_optimized o now prompt fn).1
              = .error (.breakerErr e) ∧
            (route_task_optimized o now prompt fn).2.2.stored = false ∧
            (route_task_optimized o now prompt fn).2.1.cache.backend
              = .available rows)) := by
  constructor
  · intro v hv hne
    unfold route_task_optimized
    simp only [hv]
    rw [if_neg hne]
    exact ⟨rfl, rfl, rfl, rfl⟩
  · intro hnone
    obtain ⟨hb2, httl⟩ := cache_get_none_frame o.cache rows now prompt hb
      hnone
    have hroute : route_task_optimized o now prompt fn
        = route_miss { o with cache := (o.cache.get now prompt).2 } now
            prompt fn := by
      unfold route_task_optimized
      simp only [hnone]
    have hspec := route_miss_spec
      { o with cache := (o.cache.get now prompt).2 } now prompt fn rows hb2
    rw [hroute]
    rw [httl] at hspec
    exact hspec

/-- Counterexample to C1 as stated: with a cached empty string (a stored
successful result whose output was `""`), the cache lookup is a hit —
`get` returns the value and bumps the hit counter — yet Python's
truthiness test treats it as a miss: the rate limiter is acquired, the
external call is invoked once, and the fresh result (not the cached
value) is returned. -/
theorem route_empty_string_hit_cex :
    ((⟨86400, .available [("p", ⟨"", "A", "m", 0, 100, 0⟩)], 0, 0⟩
        : EnhancedCache).get 50 "p").1 = .ok (some "") ∧
    (route_task_optimized
        ⟨⟨86400, .available [("p", ⟨"", "A", "m", 0, 100, 0⟩)], 0, 0⟩,
          CircuitBreaker.init 5 60, RateLimiter.init 60 60 0, ⟨3, 1⟩,
          0, 0, 0⟩ 50 "p"
        (fun _ => (.ok ⟨true, "A", "m", "out"⟩
          : Except Nat AgentResult))).2.2.rl_acquired = true ∧
    (route_task_optimized
        ⟨⟨86400, .available [("p", ⟨"", "A", "m", 0, 100, 0⟩)], 0, 0⟩,
          CircuitBreaker.init 5 60, RateLimiter.init 60 60 0, ⟨3, 1⟩,
          0, 0, 0⟩ 50 "p"
        (fun _ => (.ok ⟨true, "A", "m", "out"⟩
          : Except Nat AgentResult))).2.2.external_invocations = 1 ∧
    (route_task_optimized
        ⟨⟨86400, .available [("p", ⟨"", "A", "m", 0, 100, 0⟩)], 0, 0⟩,
          CircuitBreaker.init 5 60, RateLimiter.init 60 60 0, ⟨3, 1⟩,
          0, 0, 0⟩ 50 "p"
        (fun _ => (.ok ⟨true, "A", "m", "out"⟩
          : Except Nat AgentResult))).1
      = .ok (.fresh ⟨true, "A", "m", "out"⟩) := by
  have hget : ((⟨86400, .available [("p", ⟨"", "A", "m", 0, 100, 0⟩)], 0, 0⟩
      : EnhancedCache).get 50 "p")
      = (.ok (some ""),
          ⟨86400, .available [("p", ⟨"", "A", "m", 0, 100, 1⟩)], 1, 0⟩) := by
    norm_num [EnhancedCache.get, lookupRow, bumpHit]
  have hretry : RetryHandler.execute_with_retry (⟨3, 1⟩ : RetryHandler)
      (fun _ => (.ok ⟨true, "A", "m", "out"⟩ : Except Nat AgentResult))
      = (.ok ⟨true, "A", "m", "out"⟩, 1, []) := by
    simp [RetryHandler.execute_with_retry, retryLoop]
  have hcb := call_closed_ok_frame (ε := Option Nat)
    (CircuitBreaker.init 5 60) 50
    (⟨true, "A", "m", "out"⟩ : AgentResult) rfl
  refine ⟨by rw [hget], ?_, ?_, ?_⟩ <;>
    norm_num [route_task_optimized, route_miss, hget, hretry, hcb,
      EnhancedCache.store, insertOrReplace, RateLimiter.acquire,
      RateLimiter.init]

/-- Witness for C1 on a one-row cache holding a live non-empty value. -/
theorem route_cache_pipeline_witness :
    (route_task_optimized
        ⟨⟨86400, .available [("p", ⟨"wiggle(5, 10)", "A", "m", 0, 100, 0⟩)],
            0, 0⟩,
          CircuitBreaker.init 5 60, RateLimiter.init 60 60 0, ⟨3, 1⟩,
          0, 0, 0⟩ 50 "p"
        (fun _ => (.ok ⟨true, "A", "m", "out"⟩
          : Except Nat AgentResult))).1
      = .ok (.fromCache "wiggle(5, 10)") ∧
    (route_task_optimized
        ⟨⟨86400, .available [("p", ⟨"wiggle(5, 10)", "A", "m", 0, 100, 0⟩)],
            0, 0⟩,
          CircuitBreaker.init 5 60, RateLimiter.init 60 60 0, ⟨3, 1⟩,
          0, 0, 0⟩ 50 "p"
        (fun _ => (.ok ⟨true, "A", "m", "out"⟩
          : Except Nat AgentResult))).2.2
      = ⟨false, 0, 0, false⟩ := by
  have h := route_cache_pipeline
    ⟨⟨86400, .available [("p", ⟨"wiggle(5, 10)", "A", "m", 0, 100, 0⟩)],
        0, 0⟩,
      CircuitBreaker.init 5 60, RateLimiter.init 60 60 0, ⟨3, 1⟩,
      0, 0, 0⟩ 50 "p"
    (fun _ => (.ok ⟨true, "A", "m", "out"⟩ : Except Nat AgentResult))
    [("p", ⟨"wiggle(5, 10)", "A", "m", 0, 100, 0⟩)] rfl
  have h1 := h.1 "wiggle(5, 10)"
    (by norm_num [EnhancedCache.get, lookupRow]) (by simp)
  exact ⟨h1.1, h1.2.1⟩

/-! ## C7: no per-fingerprint in-flight deduplication -/

/-- The retry wrapper around an always-succeeding call returns after one
invocation. -/
lemma retry_const_ok {ε : Type} (h : RetryHandler) (res : AgentResult)
    (hm : 1 ≤ h.max_retries) :
    h.execute_with_retry (constOk (ε := ε) res) = (.ok res, 1, []) := by
  have h0 : 0 < h.max_retries := hm
  unfold RetryHandler.execute_with_retry
  rw [retryLoop_eq]
  simp [constOk, h0]

/-- Looking up the key just inserted or replaced finds the new entry. -/
lemma lookupRow_insertOrReplace_self (rows : List (String × CacheEntry))
    (k : String) (e : CacheEntry) :
    lookupRow (insertOrReplace rows k e) k = some e := by
  induction rows with
  | nil => simp [insertOrReplace, lookupRow]
  | cons hd tl ih =>
      obtain ⟨k0, e0⟩ := hd
      by_cases h : k0 = k <;> simp [insertOrReplace, lookupRow, h, ih]

/-- Full evaluation of the miss path when the breaker is closed and the
external call succeeds on its first attempt with a storable result. -/
lemma route_miss_const_ok {ε : Type} (o : Orchestrator) (now : ℚ)
    (prompt : String) (res : AgentResult)
    (rows2 : List (String × CacheEntry))
    (hbo : o.cache.backend = .available rows2)
    (hclo : o.circuit_breaker.state = .closed)
    (hmo : 1 ≤ o.retry_handler.max_retries)
    (hsu : res.success = true) :
    route_miss o now prompt (constOk (ε := ε) res)
      = (.ok (.fresh res),
          { cache := { o.cache with
                backend := .available (insertOrReplace rows2 prompt
                    ⟨res.output, res.agent_name, res.model_used, now,
                      now + o.cache.ttl, 0⟩) }
            circuit_breaker := o.circuit_breaker
            rate_limiter := (o.rate_limiter.acquire now).1
            retry_handler := o.retry_handler
            hits := o.hits, misses := o.misses + 1
            requests := o.requests + 1 },
          ⟨true, (o.rate_limiter.acquire now).2, 1, true⟩) := by
  unfold route_miss
  dsimp only
  rw [retry_const_ok o.retry_handler res hmo]
  dsimp only
  rw [call_closed_ok_frame o.circuit_breaker now res hclo]
  dsimp only
  rw [hsu]
  simp [EnhancedCache.store, hbo]

/-- A coroutine at its cache check, over a backend lacking the key, moves
to the miss continuation, bumping only the miss counter. -/
lemma stepThread_start_miss {ε : Type} (now : ℚ) (prompt : String)
    (res : AgentResult) (s : Shared) (rows : List (String × CacheEntry))
    (hb : s.cache.backend = .available rows)
    (habs : lookupRow rows prompt = none) :
    stepThread now prompt (constOk (ε := ε) res) s .start
      = ({ s with cache :=
            { s.cache with cache_misses := s.cache.cache_misses + 1 } },
          .missed) := by
  unfold stepThread
  simp only [EnhancedCache.get, hb, habs]

/-- A coroutine at its cache check, over a backend holding a live
non-empty value for the key, finishes from the cache with zero external
calls. -/
lemma stepThread_start_hit {ε : Type} (now : ℚ) (prompt : String)
    (res : AgentResult) (s : Shared) (rows : List (String × CacheEntry))
    (e : CacheEntry) (hb : s.cache.backend = .available rows)
    (hl : lookupRow rows prompt = some e) (hexp : now < e.expires_at)
    (hne : e.value ≠ "") :
    stepThread now prompt (constOk (ε := ε) res) s .start
      = ({ s with cache :=
            { s.cache with backend := .available (bumpHit rows prompt)
                           cache_hits := s.cache.cache_hits + 1 } },
          .finished 0 (.ok (.fromCache e.value))) := by
  unfold stepThread
  simp only [EnhancedCache.get, hb, hl, gt_iff_lt, hexp, if_true]
  rw [if_neg hne]

/-- A coroutine past its cache check runs the full pipeline: with a closed
breaker and an always-succeeding storable call it performs exactly one
external call and stores the result. -/
lemma stepThread_missed_const {ε : Type} (now : ℚ) (prompt : String)
    (res : AgentResult) (s : Shared)
    (rows2 : List (String × CacheEntry))
    (hb : s.cache.backend = .available rows2)
    (hcl : s.circuit_breaker.state = .closed)
    (hm : 1 ≤ s.retry_handler.max_retries)
    (hsu : res.success = true) :
    stepThread now prompt (constOk (ε := ε) res) s .missed
      = ({ cache := { s.cache with
              backend := .available (insertOrReplace rows2 prompt
                  ⟨res.output, res.agent_name, res.model_used, now,
                    now + s.cache.ttl, 0⟩) }
           circuit_breaker := s.circuit_breaker
           rate_limiter := (s.rate_limiter.acquire now).1
           retry_handler := s.retry_handler },
          .finished 1 (.ok (.fresh res))) := by
  unfold stepThread
  rw [route_miss_const_ok s.toOrch now prompt res rows2 hb hcl hm hsu]
  rfl

/-- A finished coroutine does not step. -/
lemma stepThread_finished {ε : Type} (now : ℚ) (prompt : String)
    (fn : Nat → Except ε AgentResult) (s : Shared) (n : Nat)
    (r : Except (RouteErr ε) RouteResult) :
    stepThread now prompt fn s (.finished n r) = (s, .finished n r) := rfl

/-- C7 (amended).  `route_task_optimized` has no per-fingerprint in-flight
map: two concurrent `execute` calls with the same fingerprint that both
pass the cache check before either stores its result each issue their own
external call (two in-flight calls for one fingerprint); only a call that
starts after another's successful result is stored is deduplicated, served
from the cache with no external call. -/
theorem dedup_not_enforced {ε : Type} (sh : Shared) (now : ℚ)
    (prompt : String) (res : AgentResult)
    (rows : List (String × CacheEntry))
    (hb : sh.cache.backend = .available rows)
    (habs : lookupRow rows prompt = none)
    (hcl : sh.circuit_breaker.state = .closed)
    (hm : 1 ≤ sh.retry_handler.max_retries)
    (hsu : res.success = true)
    (hne : res.output ≠ "")
    (httl : 0 < sh.cache.ttl) :
    ((runConc now prompt (constOk (ε := ε) res) ⟨sh, .start, .start⟩
        [false, true, false, true]).t1.calls = 1 ∧
      (runConc now prompt (constOk (ε := ε) res) ⟨sh, .start, .start⟩
        [false, true, false, true]).t2.calls = 1) ∧
    ((runConc now prompt (constOk (ε := ε) res) ⟨sh, .start, .start⟩
        [false, false, true]).t1.calls = 1 ∧
      (runConc now prompt (constOk (ε := ε) res) ⟨sh, .start, .start⟩
        [false, false, true]).t2
        = .finished 0 (.ok (.fromCache res.output))) := by
  constructor
  · constructor <;>
      simp [runConc, stepThread_start_miss, stepThread_missed_const,
        ThreadPC.calls, hb, habs, hcl, hm, hsu, hne, httl]
  · constructor <;>
      simp [runConc, stepThread_start_miss, stepThread_missed_const,
        stepThread_start_hit, ThreadPC.calls, hb, habs, hcl, hm, hsu, hne,
        httl, lookupRow_insertOrReplace_self, lt_add_iff_pos_right]

/-- Counterexample to C7 as stated: from an empty cache, the interleaving
(T1 cache check, T2 cache check, T1 rest, T2 rest) of two
`route_task_optimized` calls for the same fingerprint issues two external
calls — more than one in-flight call for that fingerprint existed. -/
theorem dedup_two_inflight_cex :
    (runConc 10 "p" (constOk (ε := Nat) ⟨true, "A", "m", "out"⟩)
        ⟨⟨⟨86400, .available [], 0, 0⟩, CircuitBreaker.init 5 60,
            RateLimiter.init 60 60 0, ⟨3, 1⟩⟩, .start, .start⟩
        [false, true, false, true]).t1.calls = 1 ∧
    (runConc 10 "p" (constOk (ε := Nat) ⟨true, "A", "m", "out"⟩)
        ⟨⟨⟨86400, .available [], 0, 0⟩, CircuitBreaker.init 5 60,
            RateLimiter.init 60 60 0, ⟨3, 1⟩⟩, .start, .start⟩
        [false, true, false, true]).t2.calls = 1 := by
  constructor <;>
    simp [runConc, stepThread_start_miss, stepThread_missed_const,
      ThreadPC.calls, CircuitBreaker.init, lookupRow]

/-- Witness for C7's amended statement at the concrete empty-cache
instance. -/
theorem dedup_not_enforced_witness :
    ((runConc 10 "p" (constOk (ε := Nat) ⟨true, "A", "m", "out"⟩)
        ⟨⟨⟨86400, .available [], 0, 0⟩, CircuitBreaker.init 5 60,
            RateLimiter.init 60 60 0, ⟨3, 1⟩⟩, .start, .start⟩
        [false, true, false, true]).t1.calls = 1 ∧
      (runConc 10 "p" (constOk (ε := Nat) ⟨true, "A", "m", "out"⟩)
        ⟨⟨⟨86400, .available [], 0, 0⟩, CircuitBreaker.init 5 60,
            RateLimiter.init 60 60 0, ⟨3, 1⟩⟩, .start, .start⟩
        [false, true, false, true]).t2.calls = 1) ∧
    ((runConc 10 "p" (constOk (ε := Nat) ⟨true, "A", "m", "out"⟩)
        ⟨⟨⟨86400, .available [], 0, 0⟩, CircuitBreaker.init 5 60,
            RateLimiter.init 60 60 0, ⟨3, 1⟩⟩, .start, .start⟩
        [false, false, true]).t1.calls = 1 ∧
      (runConc 10 "p" (constOk (ε := Nat) ⟨true, "A", "m", "out"⟩)
        ⟨⟨⟨86400, .available [], 0, 0⟩, CircuitBreaker.init 5 60,
            RateLimiter.init 60 60 0, ⟨3, 1⟩⟩, .start, .start⟩
        [false, false, true]).t2
        = .finished 0 (.ok (.fromCache "out"))) :=
  dedup_not_enforced
    ⟨⟨86400, .available [], 0, 0⟩, CircuitBreaker.init 5 60,
      RateLimiter.init 60 60 0, ⟨3, 1⟩⟩ 10 "p" ⟨true, "A", "m", "out"⟩
    [] rfl rfl rfl (by norm_num) rfl (by simp) (by norm_num)

end AEOpt
